import Mathlib

/-!
# PCLWrapper.hpp: the data-exchange contract of the surface reconstruction boundary

Source: `ThreeDScanner-iOS/ThreeDScanner/PCLWrapper/PCLWrapper.hpp`.

The header declares four plain C structs and one function prototype.  The
structs are embedded field by field, in declaration order.  A C pointer field
is embedded as the array it addresses (a `List`); the count fields next to it
stay separate fields, exactly as in the header, so nothing ties a count to the
length of its array unless a theorem assumes it.
-/

namespace PCLWrapper

/-! ## Machine integers -/

/-- Modelled from the spec: the width of the C type `int`.  The header uses `int` and
leaves its width to the target ABI; section 6 of the specification fixes it as a
4-byte integer, so the values are the signed 32-bit range. -/
structure CInt where
  val : Int
  lo : -2147483648 ≤ val
  hi : val ≤ 2147483647

/-- Modelled from the spec: the width of the C type `long int`.  The header uses
`long int` and leaves its width to the target ABI; section 6 of the specification fixes
it as a wide (8-byte) integer, so the values are the signed 64-bit range. -/
structure CLong where
  val : Int
  lo : -9223372036854775808 ≤ val
  hi : val ≤ 9223372036854775807

/-! ## The structs of the header -/

/-- Struct `typedef struct PCLPoint3D { double x, y, z; } PCLPoint3D;` -/
structure PCLPoint3D where
  x : Float
  y : Float
  z : Float

/-- Struct `typedef struct PCLPointCloud { int numPoints; PCLPoint3D *points; int numFrames;
int *pointFrameLengths; PCLPoint3D *viewpoints; } PCLPointCloud;` -/
structure PCLPointCloud where
  numPoints : CInt
  points : List PCLPoint3D
  numFrames : CInt
  pointFrameLengths : List CInt
  viewpoints : List PCLPoint3D

/-- Struct `typedef struct PCLPolygon { int v1, v2, v3; } PCLPolygon;` -/
structure PCLPolygon where
  v1 : CInt
  v2 : CInt
  v3 : CInt

/-- Struct `typedef struct PCLMesh { long int numPoints; long int numFaces; PCLPoint3D *points;
PCLPolygon *polygons; } PCLMesh;` -/
structure PCLMesh where
  numPoints : CLong
  numFaces : CLong
  points : List PCLPoint3D
  polygons : List PCLPolygon

/-! ## Reading a point cloud frame by frame -/

/-- Number of frames a reader of the struct iterates over: `numFrames`, none when it
is not positive. -/
def frameCount (c : PCLPointCloud) : Nat :=
  c.numFrames.val.toNat

/-- The entry `pointFrameLengths[k]`, as a mathematical integer (0 past the end of the array). -/
def frameLength (c : PCLPointCloud) (k : Nat) : Int :=
  match c.pointFrameLengths.get? k with
  | some len => len.val
  | none => 0

/-- Offset of the first point of frame `i` in the flat point array:
`L_0 + ... + L_(i-1)`. -/
def frameStart (c : PCLPointCloud) : Nat → Int
  | 0 => 0
  | i + 1 => frameStart c i + frameLength c i

/-- Offset one past the last point of frame `i`: `L_0 + ... + L_i`. -/
def frameEnd (c : PCLPointCloud) (i : Nat) : Int :=
  frameStart c i + frameLength c i

/-- Point index `p` belongs to frame `i`: it lies in `[frameStart i, frameEnd i)`. -/
def inFrame (c : PCLPointCloud) (i : Nat) (p : Int) : Prop :=
  frameStart c i ≤ p ∧ p < frameEnd c i

/-- Sum of the `numFrames` entries of `pointFrameLengths`. -/
def sumFrameLengths (c : PCLPointCloud) : Int :=
  ((c.pointFrameLengths.take (frameCount c)).map CInt.val).sum

/-! ## The invariants of the data model (section 3) -/

/-- The array behind `pointFrameLengths` has `numFrames` entries. -/
def framesSized (c : PCLPointCloud) : Prop :=
  (c.pointFrameLengths.length : Int) = c.numFrames.val

/-- The array behind `points` has `numPoints` entries. -/
def pointsSized (c : PCLPointCloud) : Prop :=
  (c.points.length : Int) = c.numPoints.val

/-- Sum of the frame lengths equals the total point count. -/
def sumInvariant (c : PCLPointCloud) : Prop :=
  sumFrameLengths c = c.numPoints.val

/-- One viewpoint per frame. -/
def viewpointInvariant (c : PCLPointCloud) : Prop :=
  (c.viewpoints.length : Int) = c.numFrames.val

/-- A well-formed point cloud of section 3: each count field is the length of its array,
the frame lengths sum to the point count, and there is one viewpoint per frame. -/
def wellFormed (c : PCLPointCloud) : Prop :=
  pointsSized c ∧ framesSized c ∧ sumInvariant c ∧ viewpointInvariant c

/-- Every frame length is non-negative. -/
def lengthsNonneg (c : PCLPointCloud) : Prop :=
  ∀ len ∈ c.pointFrameLengths, 0 ≤ len.val

/-- The frames partition the flat point array: consecutive frames are contiguous, the
first starts at offset 0, the last ends at `numPoints`, two distinct frames share no
point index, and every point index in `[0, numPoints)` lies in exactly one frame. -/
def framesPartition (c : PCLPointCloud) : Prop :=
  (frameStart c 0 = 0 ∧ frameStart c (frameCount c) = c.numPoints.val ∧
    ∀ i, i + 1 < frameCount c → frameEnd c i = frameStart c (i + 1)) ∧
  (∀ i j p, i < frameCount c → j < frameCount c → inFrame c i p → inFrame c j p → i = j) ∧
  (∀ p : Int, 0 ≤ p → p < c.numPoints.val → ∃! i, i < frameCount c ∧ inFrame c i p)

/-- The frames cover the point indices exactly: an integer is a point index in
`[0, numPoints)` if and only if it belongs to one of the `numFrames` frames. -/
def framesCover (c : PCLPointCloud) : Prop :=
  ∀ p : Int, (0 ≤ p ∧ p < c.numPoints.val) ↔ ∃ i, i < frameCount c ∧ inFrame c i p

instance (c : PCLPointCloud) : Decidable (framesSized c) := by
  unfold framesSized; infer_instance

instance (c : PCLPointCloud) : Decidable (pointsSized c) := by
  unfold pointsSized; infer_instance

instance (c : PCLPointCloud) : Decidable (sumInvariant c) := by
  unfold sumInvariant; infer_instance

instance (c : PCLPointCloud) : Decidable (viewpointInvariant c) := by
  unfold viewpointInvariant; infer_instance

instance (c : PCLPointCloud) : Decidable (lengthsNonneg c) := by
  unfold lengthsNonneg; infer_instance

instance (c : PCLPointCloud) (i : Nat) (p : Int) : Decidable (inFrame c i p) := by
  unfold inFrame; infer_instance

/-! ## Reading a mesh face by face -/

/-- The faces a reader of the struct iterates over: the first `numFaces` polygons. -/
def faces (m : PCLMesh) : List PCLPolygon :=
  m.polygons.take m.numFaces.val.toNat

/-- A vertex index is a valid offset into the mesh's point sequence. -/
def validIndex (m : PCLMesh) (v : CInt) : Prop :=
  0 ≤ v.val ∧ v.val < m.numPoints.val

/-- Every face index of the mesh is valid. -/
def facesValid (m : PCLMesh) : Prop :=
  ∀ f ∈ faces m, validIndex m f.v1 ∧ validIndex m f.v2 ∧ validIndex m f.v3

instance (m : PCLMesh) (v : CInt) : Decidable (validIndex m v) := by
  unfold validIndex; infer_instance

instance (m : PCLMesh) : Decidable (facesValid m) := by
  unfold facesValid; infer_instance

/-! ## Concrete values -/

/-- The origin, used to fill point arrays of concrete values. -/
def origin : PCLPoint3D := ⟨0, 0, 0⟩

/-- A cloud of three points whose only frame claims two of them. -/
def cloudShortFrame : PCLPointCloud :=
  { numPoints := ⟨3, by decide, by decide⟩
    points := [origin, origin, origin]
    numFrames := ⟨1, by decide, by decide⟩
    pointFrameLengths := [⟨2, by decide, by decide⟩]
    viewpoints := [origin] }

/-- A cloud of two points in three frames of lengths 2, -1 and 1. -/
def cloudNegativeFrame : PCLPointCloud :=
  { numPoints := ⟨2, by decide, by decide⟩
    points := [origin, origin]
    numFrames := ⟨3, by decide, by decide⟩
    pointFrameLengths := [⟨2, by decide, by decide⟩, ⟨-1, by decide, by decide⟩,
      ⟨1, by decide, by decide⟩]
    viewpoints := [origin, origin, origin] }

/-- A cloud of five points in three frames of lengths 2, 0 and 3. -/
def cloudThreeFrames : PCLPointCloud :=
  { numPoints := ⟨5, by decide, by decide⟩
    points := [origin, origin, origin, origin, origin]
    numFrames := ⟨3, by decide, by decide⟩
    pointFrameLengths := [⟨2, by decide, by decide⟩, ⟨0, by decide, by decide⟩,
      ⟨3, by decide, by decide⟩]
    viewpoints := [origin, origin, origin] }

/-- The cloud with no point and no frame. -/
def emptyCloud : PCLPointCloud :=
  { numPoints := ⟨0, by decide, by decide⟩
    points := []
    numFrames := ⟨0, by decide, by decide⟩
    pointFrameLengths := []
    viewpoints := [] }

/-- The cloud of `n` points held in a single frame of length `n`, seen from one viewpoint. -/
def singleFrameCloud (n : CInt) : PCLPointCloud :=
  { numPoints := n
    points := List.replicate n.val.toNat origin
    numFrames := ⟨1, by decide, by decide⟩
    pointFrameLengths := [n]
    viewpoints := [origin] }

/-- The `int` value -1. -/
def negOne : CInt := ⟨-1, by decide, by decide⟩

/-- The `int` value 5. -/
def five : CInt := ⟨5, by decide, by decide⟩

/-- A mesh header announcing `2^31 + 1` points, with one face on the vertices 0, 1, 2. -/
def wideMesh : PCLMesh :=
  { numPoints := ⟨2147483649, by decide, by decide⟩
    numFaces := ⟨1, by decide, by decide⟩
    points := [origin, origin, origin]
    polygons := [⟨⟨0, by decide, by decide⟩, ⟨1, by decide, by decide⟩,
      ⟨2, by decide, by decide⟩⟩] }

/-! ## Lemmas on frame offsets -/

theorem frameLength_nonneg (c : PCLPointCloud) (hnn : lengthsNonneg c) (k : Nat) :
    0 ≤ frameLength c k := by
  unfold frameLength
  cases hk : c.pointFrameLengths.get? k with
  | none => simp
  | some len => exact hnn len (List.get?_mem hk)

theorem frameStart_eq_sum_take (c : PCLPointCloud) (i : Nat) :
    frameStart c i = ((c.pointFrameLengths.take i).map CInt.val).sum := by
  induction i with
  | zero => simp [frameStart]
  | succ i ih =>
    rw [frameStart, ih]
    unfold frameLength
    by_cases hi : i < c.pointFrameLengths.length
    · have hm : i < (c.pointFrameLengths.map CInt.val).length := by simpa using hi
      rw [List.get?_eq_get hi, List.map_take, List.map_take, List.sum_take_succ _ i hm]
      simp
    · have hle : c.pointFrameLengths.length ≤ i := Nat.le_of_not_lt hi
      rw [List.get?_eq_none.mpr hle, List.take_of_length_le hle,
        List.take_of_length_le (Nat.le_succ_of_le hle)]
      simp

theorem frameStart_le_succ (c : PCLPointCloud) (hnn : lengthsNonneg c) (i : Nat) :
    frameStart c i ≤ frameStart c (i + 1) := by
  have h := frameLength_nonneg c hnn i
  simp only [frameStart]
  omega

theorem frameStart_mono (c : PCLPointCloud) (hnn : lengthsNonneg c) {i j : Nat} (hij : i ≤ j) :
    frameStart c i ≤ frameStart c j := by
  induction j with
  | zero =>
    have : i = 0 := Nat.le_zero.mp hij
    subst this
    exact le_refl _
  | succ j ih =>
    rcases Nat.lt_or_ge i (j + 1) with h | h
    · exact le_trans (ih (Nat.lt_succ_iff.mp h)) (frameStart_le_succ c hnn j)
    · have : i = j + 1 := Nat.le_antisymm hij h
      subst this
      exact le_refl _

theorem frameStart_nonneg (c : PCLPointCloud) (hnn : lengthsNonneg c) (i : Nat) :
    0 ≤ frameStart c i :=
  frameStart_mono c hnn (Nat.zero_le i)

/-- With non-negative lengths the first `n` frames fill exactly the offsets below
`frameStart c n`. -/
theorem mem_frames_iff (c : PCLPointCloud) (hnn : lengthsNonneg c) (n : Nat) (p : Int) :
    (0 ≤ p ∧ p < frameStart c n) ↔ ∃ i, i < n ∧ inFrame c i p := by
  induction n with
  | zero =>
    constructor
    · rintro ⟨h0, h1⟩
      simp only [frameStart] at h1
      omega
    · rintro ⟨i, hi, _⟩
      omega
  | succ n ih =>
    constructor
    · rintro ⟨h0, h1⟩
      by_cases hp : p < frameStart c n
      · obtain ⟨i, hi, hin⟩ := ih.mp ⟨h0, hp⟩
        exact ⟨i, Nat.lt_succ_of_lt hi, hin⟩
      · refine ⟨n, Nat.lt_succ_self n, ?_, ?_⟩
        · omega
        · simpa [frameEnd, frameStart] using h1
    · rintro ⟨i, hi, hin⟩
      rcases Nat.lt_succ_iff_lt_or_eq.mp hi with h | h
      · have := ih.mpr ⟨i, h, hin⟩
        have hm := frameStart_le_succ c hnn n
        exact ⟨this.1, by omega⟩
      · subst h
        have h0 := frameStart_nonneg c hnn i
        obtain ⟨ha, hb⟩ := hin
        refine ⟨by omega, ?_⟩
        simpa [frameEnd, frameStart] using hb

/-- With non-negative lengths a point index lies in at most one frame. -/
theorem inFrame_unique (c : PCLPointCloud) (hnn : lengthsNonneg c) {i j : Nat} {p : Int}
    (hi : inFrame c i p) (hj : inFrame c j p) : i = j := by
  have key : ∀ a b : Nat, a < b → inFrame c a p → inFrame c b p → False := by
    intro a b hab ha hb
    have hm := frameStart_mono c hnn (show a + 1 ≤ b from hab)
    have he : frameEnd c a = frameStart c (a + 1) := rfl
    have h1 := ha.2
    have h2 := hb.1
    omega
  rcases Nat.lt_trichotomy i j with h | h | h
  · exact (key i j h hi hj).elim
  · exact h
  · exact (key j i h hj hi).elim

theorem sumFrameLengths_eq_frameStart (c : PCLPointCloud) :
    sumFrameLengths c = frameStart c (frameCount c) := by
  rw [frameStart_eq_sum_take]
  rfl

/-! ## The sum invariant (C1) -/

/-- C1, counterexample: the struct does not force the sum invariant.  The cloud
`cloudShortFrame` has a `pointFrameLengths` array of `numFrames = 1` entry, three points
and one viewpoint, yet its frame lengths sum to 2 while `numPoints` is 3. -/
theorem sumInvariant_not_forced :
    framesSized cloudShortFrame ∧ pointsSized cloudShortFrame ∧
      viewpointInvariant cloudShortFrame ∧ sumFrameLengths cloudShortFrame = 2 ∧
      cloudShortFrame.numPoints.val = 3 ∧ ¬ sumInvariant cloudShortFrame := by
  decide

/-- C1, amended: for a cloud with a non-negative `numPoints` whose `pointFrameLengths`
array has `numFrames` entries, all non-negative, the sum of the frame lengths equals
`numPoints` exactly when the frames given by the cumulative lengths cover the point
indices `[0, numPoints)` and nothing else. -/
theorem sumInvariant_iff_framesCover (c : PCLPointCloud) (_hsz : framesSized c)
    (hnn : lengthsNonneg c) (hnp : 0 ≤ c.numPoints.val) :
    sumInvariant c ↔ framesCover c := by
  unfold sumInvariant framesCover
  rw [sumFrameLengths_eq_frameStart]
  constructor
  · intro h p
    rw [← h]
    exact mem_frames_iff c hnn (frameCount c) p
  · intro h
    have h0 := frameStart_nonneg c hnn (frameCount c)
    have hA := fun p => (mem_frames_iff c hnn (frameCount c) p).trans (h p).symm
    have h1 := hA (frameStart c (frameCount c))
    have h2 := hA c.numPoints.val
    omega

/-- Instance of the characterisation of the sum invariant at the cloud of five points
in frames of lengths 2, 0 and 3. -/
theorem sumInvariant_iff_framesCover_witness :
    (framesSized cloudThreeFrames ∧ lengthsNonneg cloudThreeFrames ∧
      0 ≤ cloudThreeFrames.numPoints.val) ∧
    (sumInvariant cloudThreeFrames ↔ framesCover cloudThreeFrames) :=
  ⟨by decide,
    sumInvariant_iff_framesCover cloudThreeFrames (by decide) (by decide) (by decide)⟩

/-! ## Frames partition the point array (C3) -/

/-- C3, counterexample: with a negative frame length the frames do not partition the
point array although the lengths sum to `numPoints`.  In `cloudNegativeFrame` (lengths
2, -1, 1, two points) the point index 1 lies both in frame 0 = `[0, 2)` and in
frame 2 = `[1, 2)`. -/
theorem framesPartition_fails_negative_length :
    framesSized cloudNegativeFrame ∧ sumInvariant cloudNegativeFrame ∧
      inFrame cloudNegativeFrame 0 1 ∧ inFrame cloudNegativeFrame 2 1 ∧
      ¬ framesPartition cloudNegativeFrame := by
  refine ⟨by decide, by decide, by decide, by decide, ?_⟩
  intro h
  have h02 := h.2.1 0 2 1 (by decide) (by decide) (by decide) (by decide)
  omega

/-- C3, amended: for every cloud whose `pointFrameLengths` array has `numFrames` entries,
all non-negative, and whose frame lengths sum to `numPoints`, the frames given by the
cumulative lengths partition the flat point array: they are contiguous from offset 0 to
`numPoints`, pairwise disjoint, and every point index in `[0, numPoints)` lies in exactly
one frame. -/
theorem framesPartition_of_nonneg (c : PCLPointCloud) (_hsz : framesSized c)
    (hsum : sumInvariant c) (hnn : lengthsNonneg c) : framesPartition c := by
  have hend : frameStart c (frameCount c) = c.numPoints.val := by
    rw [← sumFrameLengths_eq_frameStart]
    exact hsum
  refine ⟨⟨rfl, hend, fun i _ => rfl⟩, ?_, ?_⟩
  · intro i j p _ _ hi hj
    exact inFrame_unique c hnn hi hj
  · intro p hp0 hp1
    rw [← hend] at hp1
    obtain ⟨i, hi, hin⟩ := (mem_frames_iff c hnn (frameCount c) p).mp ⟨hp0, hp1⟩
    exact ⟨i, ⟨hi, hin⟩, fun j hj => inFrame_unique c hnn hj.2 hin⟩

/-- Instance of the partition property at the cloud of five points in frames of
lengths 2, 0 and 3. -/
theorem framesPartition_of_nonneg_witness :
    (framesSized cloudThreeFrames ∧ sumInvariant cloudThreeFrames ∧
      lengthsNonneg cloudThreeFrames) ∧ framesPartition cloudThreeFrames :=
  ⟨by decide,
    framesPartition_of_nonneg cloudThreeFrames (by decide) (by decide) (by decide)⟩

/-! ## Boundary values (C5, C6) -/

/-- C5, counterexample: the `int` value -1 is representable in the `numPoints` field, the
single-frame cloud built on it satisfies the sum invariant and the viewpoint-count
invariant, yet no well-formed cloud has `numPoints = -1`, `numFrames = 1`,
`pointFrameLengths = [-1]` and one viewpoint: no point array has -1 entries. -/
theorem single_frame_fails_negative :
    sumInvariant (singleFrameCloud negOne) ∧ viewpointInvariant (singleFrameCloud negOne) ∧
      framesSized (singleFrameCloud negOne) ∧ ¬ pointsSized (singleFrameCloud negOne) ∧
      ¬ lengthsNonneg (singleFrameCloud negOne) ∧
      ¬ ∃ c : PCLPointCloud, c.numPoints = negOne ∧ c.numFrames.val = 1 ∧
        c.pointFrameLengths = [negOne] ∧ c.viewpoints.length = 1 ∧ wellFormed c := by
  refine ⟨by decide, by decide, by decide, by decide, by decide, ?_⟩
  rintro ⟨c, hnp, -, -, -, hwf⟩
  have hps : (c.points.length : Int) = c.numPoints.val := hwf.1
  rw [hnp] at hps
  have hneg : negOne.val = -1 := rfl
  omega

/-- C5, amended: for every non-negative value `n` of the `numPoints` field there is a
well-formed cloud with `numPoints = n`, `numFrames = 1`, `pointFrameLengths = [n]` and
exactly one viewpoint: its point array has `n` entries, its frame-length array has
`numFrames` entries, the sum invariant and the viewpoint-count invariant hold, and its
frame length is non-negative. -/
theorem single_frame_representable (n : CInt) (hn : 0 ≤ n.val) :
    ∃ c : PCLPointCloud, c.numPoints = n ∧ c.numFrames.val = 1 ∧
      c.pointFrameLengths = [n] ∧ c.viewpoints.length = 1 ∧
      wellFormed c ∧ lengthsNonneg c := by
  refine ⟨singleFrameCloud n, rfl, rfl, rfl, rfl, ⟨?_, ?_, ?_, ?_⟩, ?_⟩
  · simp only [pointsSized, singleFrameCloud, List.length_replicate]
    omega
  · simp [framesSized, singleFrameCloud]
  · simp [sumInvariant, sumFrameLengths, frameCount, singleFrameCloud]
  · simp [viewpointInvariant, singleFrameCloud]
  · intro len hlen
    have : len = n := by simpa [singleFrameCloud] using hlen
    rw [this]
    exact hn

/-- Instance of the single-frame boundary at five points. -/
theorem single_frame_representable_witness :
    0 ≤ five.val ∧
      ∃ c : PCLPointCloud, c.numPoints = five ∧ c.numFrames.val = 1 ∧
        c.pointFrameLengths = [five] ∧ c.viewpoints.length = 1 ∧
        wellFormed c ∧ lengthsNonneg c :=
  ⟨by decide, single_frame_representable five (by decide)⟩

/-- C6: the empty cloud is representable: there is a cloud with `numPoints = 0`,
`numFrames = 0` and empty `points`, `pointFrameLengths` and `viewpoints` whose (empty) sum
of frame lengths is 0, so that the sum invariant and the viewpoint-count invariant
hold. -/
theorem empty_cloud_representable :
    ∃ c : PCLPointCloud, c.numPoints.val = 0 ∧ c.numFrames.val = 0 ∧
      c.points.length = 0 ∧ c.pointFrameLengths.length = 0 ∧ c.viewpoints.length = 0 ∧
      sumFrameLengths c = 0 ∧ sumInvariant c ∧ viewpointInvariant c :=
  ⟨emptyCloud, by decide⟩

/-! ## Index width against point count (C8) -/

/-- C8: polygon indices are 32-bit and `PCLMesh.numPoints` is 64-bit.  For every mesh with
`numPoints > 2^31` some vertex offset in `[0, numPoints)` is held by no index `v1`, `v2`,
`v3` of any polygon; and in every mesh whose face indices are all valid, every index of
every face is below `2^31`, whatever `numPoints` is. -/
theorem index_width_mismatch (m : PCLMesh) :
    (2147483648 < m.numPoints.val →
      ∃ off : Int, 0 ≤ off ∧ off < m.numPoints.val ∧
        ∀ f : PCLPolygon, f.v1.val ≠ off ∧ f.v2.val ≠ off ∧ f.v3.val ≠ off) ∧
    (facesValid m →
      ∀ f ∈ faces m, (0 ≤ f.v1.val ∧ f.v1.val < 2147483648) ∧
        (0 ≤ f.v2.val ∧ f.v2.val < 2147483648) ∧ (0 ≤ f.v3.val ∧ f.v3.val < 2147483648)) := by
  constructor
  · intro h
    refine ⟨2147483648, by omega, h, ?_⟩
    intro f
    have h1 := f.v1.hi
    have h2 := f.v2.hi
    have h3 := f.v3.hi
    omega
  · intro hv f hf
    obtain ⟨⟨a1, _⟩, ⟨a2, _⟩, ⟨a3, _⟩⟩ := hv f hf
    have h1 := f.v1.hi
    have h2 := f.v2.hi
    have h3 := f.v3.hi
    omega

/-- Instance of the width mismatch at a mesh announcing `2^31 + 1` points with one
valid face. -/
theorem index_width_mismatch_witness :
    (2147483648 < wideMesh.numPoints.val ∧ facesValid wideMesh) ∧
    (∃ off : Int, 0 ≤ off ∧ off < wideMesh.numPoints.val ∧
        ∀ f : PCLPolygon, f.v1.val ≠ off ∧ f.v2.val ≠ off ∧ f.v3.val ≠ off) ∧
    (∀ f ∈ faces wideMesh, (0 ≤ f.v1.val ∧ f.v1.val < 2147483648) ∧
        (0 ≤ f.v2.val ∧ f.v2.val < 2147483648) ∧ (0 ≤ f.v3.val ∧ f.v3.val < 2147483648)) :=
  ⟨by decide, (index_width_mismatch wideMesh).1 (by decide),
    (index_width_mismatch wideMesh).2 (by decide)⟩

end PCLWrapper
